import Mathlib

/-!
Shallow embedding of `trello_full_backup/backup.py` and proofs about it.

Strings are modelled as `List Char`; resource identifiers (board / list ids),
which the code only compares for equality, as `String`.  Network effects are
modelled by explicit oracles (`fetch` for attachment downloads), filesystem
effects by explicit operation lists.
-/

namespace TrelloBackup

/-- `FILE_NAME_MAX_LENGTH = 255` (backup.py line 14). -/
def FILE_NAME_MAX_LENGTH : Nat := 255

/-- `ATTACHMENT_BYTE_LIMIT = 100000000` (backup.py line 11), the default `-a` value. -/
def ATTACHMENT_BYTE_LIMIT : Int := 100000000

/-- Python slice `s[-n:]` for `n > 0`: the suffix of at most `n` characters
(the whole string when `s` is no longer than `n`). -/
def takeLastChars (n : Nat) (l : List Char) : List Char :=
  l.drop (l.length - n)

/-- The character class of the regex `[<>:\/\|\?\*]` in `sanitize_file_name`
(backup.py line 28).  Inside the class each backslash escapes the following
character, so the class consists of exactly the seven characters
`<` `>` `:` `/` `|` `?` `*`; a literal backslash is NOT in the class. -/
def forbiddenChar (c : Char) : Bool :=
  c == '<' || c == '>' || c == ':' || c == '/' || c == '|' || c == '?' || c == '*'

/-- The per-character action of `re.sub(r'[<>:\/\|\?\*]', '_', name)`: the
pattern matches single characters, so the substitution is a character map. -/
def replaceChar (c : Char) : Char :=
  if forbiddenChar c then '_' else c

/-- `sanitize_file_name` (backup.py lines 26-28):
`re.sub(r'[<>:\/\|\?\*]', '_', name)[-FILE_NAME_MAX_LENGTH:]`. -/
def sanitize_file_name (name : List Char) : List Char :=
  takeLastChars FILE_NAME_MAX_LENGTH (name.map replaceChar)

/-- An attachment of a card: display name, url, nullable byte size. -/
structure Attachment where
  name : List Char
  url : List Char
  bytes : Option Int
deriving DecidableEq

/-- A card as it appears inside a board detail payload. -/
structure Card where
  name : List Char
  desc : List Char
  pos : Int
  idList : String
  attachments : List Attachment
deriving DecidableEq

/-- A list (column) as it appears inside a board detail payload. -/
structure TrelloList where
  id : String
  name : List Char
deriving DecidableEq

/-- The part of the board detail payload that `backup_board` consumes. -/
structure BoardDetails where
  name : List Char
  lists : List TrelloList
  cards : List Card
deriving DecidableEq

/-- The filter condition of `download_attachments` (backup.py lines 46-48):
`a['bytes'] is not None and (a['bytes'] < max_size or max_size == -1)`. -/
def attachmentIncluded (a : Attachment) (maxSize : Int) : Bool :=
  match a.bytes with
  | none => false
  | some b => b < maxSize || maxSize == -1

/-- The filtered attachment list `attachments` of `download_attachments`. -/
def includedAttachments (c : Card) (maxSize : Int) : List Attachment :=
  c.attachments.filter (fun a => attachmentIncluded a maxSize)

/-- `len(attachments) > 0` guards creation of the `attachments` subdirectory
(backup.py lines 50-53). -/
def attachmentsDirCreated (c : Card) (maxSize : Int) : Bool :=
  !(includedAttachments c maxSize).isEmpty

/-- The on-disk name of attachment number `i`:
`sanitize_file_name(str(id_attachment) + '_' + attachment['name'])`
(backup.py lines 57-58). -/
def attachmentFileName (i : Nat) (a : Attachment) : List Char :=
  sanitize_file_name (Nat.toDigits 10 i ++ '_' :: a.name)

/-- Outcome of fetching one attachment.  `exn`: `requests.get` itself raises
(connection error, timeout before the response starts) — the only path the
`except` on backup.py line 65 catches.  `response`: a response object whose
`iter_content` yields `chunks`; when `interrupted` is true the iterator then
raises (network error or read timeout while streaming the body, possible
because of `stream=True`), which happens on lines 69-72 OUTSIDE the `try`
and is therefore uncaught.  The HTTP status is carried but never inspected. -/
inductive FetchOutcome where
  | exn
  | response (status : Nat) (chunks : List (List Char)) (interrupted : Bool)
deriving DecidableEq

/-- Observable events of the attachment download loop: a message on stderr or
a file written in the `attachments` directory. -/
inductive DAEvent where
  | stderrMsg (msg : List Char)
  | wroteFile (name : List Char) (content : List Char)
deriving DecidableEq

/-- The body written for a successful response: the chunks concatenated, empty
chunks skipped (`if chunk:` at backup.py line 71). -/
def writtenBody (chunks : List (List Char)) : List Char :=
  (chunks.filter (fun ch => !ch.isEmpty)).flatten

/-- Whether an outcome raises during body streaming (uncaught by the code). -/
def streamInterrupted : FetchOutcome → Bool
  | .response _ _ true => true
  | _ => false

/-- A fetch oracle none of whose outcomes raises during body streaming. -/
def streamsCleanly (fetch : Nat → Attachment → FetchOutcome) : Prop :=
  ∀ n : Nat, ∀ a : Attachment, streamInterrupted (fetch n a) = false

/-- The single event attachment `p.2` at ordinal `p.1` contributes before the
loop continues or aborts: the stderr diagnostic
`'Could not download ' + attachment_name` for a caught `requests.get`
exception (backup.py line 66), or the file written from the chunks the body
iterator yielded (lines 69-72) — for an interrupted stream these are the
chunks received before the uncaught raise, left behind in the partly written
file (`with open` closes it during unwinding). -/
def attachmentEvent (fetch : Nat → Attachment → FetchOutcome)
    (p : Nat × Attachment) : DAEvent :=
  match fetch p.1 p.2 with
  | .exn => .stderrMsg ("Could not download ".toList ++ attachmentFileName p.1 p.2)
  | .response _ chunks _ => .wroteFile (attachmentFileName p.1 p.2) (writtenBody chunks)

/-- Result of the download loop: the events that happened, in order, and
whether an uncaught exception aborted it (propagating out of
`download_attachments` through `backup_card` and `backup_board` to `cli`,
terminating the whole export). -/
structure DownloadResult where
  events : List DAEvent
  aborted : Bool
deriving DecidableEq

/-- The loop of backup.py lines 56-72 over the enumerated filtered
attachments: a caught `requests.get` exception logs to stderr and continues
(`continue` on line 67); a response with a clean body stream writes the file
and continues; an interrupted body stream writes the partial file and raises
out of the loop — the remaining attachments are never processed. -/
def runDownloads (fetch : Nat → Attachment → FetchOutcome) :
    List (Nat × Attachment) → DownloadResult
  | [] => { events := [], aborted := false }
  | p :: rest =>
    if streamInterrupted (fetch p.1 p.2) then
      { events := [attachmentEvent fetch p], aborted := true }
    else
      let r := runDownloads fetch rest
      { events := attachmentEvent fetch p :: r.events, aborted := r.aborted }

/-- `download_attachments` (backup.py lines 43-75): filter by size, then run
the download loop with `enumerate` ordinals. -/
def download_attachments (c : Card) (maxSize : Int)
    (fetch : Nat → Attachment → FetchOutcome) : DownloadResult :=
  runDownloads fetch (includedAttachments c maxSize).enum

/-- `itertools.groupby(cards, key=lambda x: x['idList'])` (backup.py line 128):
groups CONSECUTIVE elements with equal key only; a key occurring in several
non-adjacent runs yields several separate groups. -/
def groupRuns : List Card → List (String × List Card)
  | [] => []
  | c :: cs =>
    match groupRuns cs with
    | [] => [(c.idList, [c])]
    | (k, g) :: rest =>
      if c.idList = k then (k, c :: g) :: rest
      else (c.idList, [c]) :: (k, g) :: rest

/-- Python dict assignment `d[k] = v`: replace the value when the key is
present, append otherwise (only lookups are done afterwards, so insertion
position is irrelevant). -/
def insertDict (d : List (String × List Card)) (k : String) (v : List Card) :
    List (String × List Card) :=
  match d with
  | [] => [(k, v)]
  | (k2, v2) :: rest =>
    if k = k2 then (k, v) :: rest else (k2, v2) :: insertDict rest k v

/-- The order relation of `sorted(..., key=lambda card: card['pos'])`. -/
def posLE (a b : Card) : Prop := a.pos ≤ b.pos

instance : DecidableRel posLE := fun a b => Int.decLe a.pos b.pos

instance : IsTotal Card posLE := ⟨fun a b => Int.le_total a.pos b.pos⟩

instance : IsTrans Card posLE := ⟨fun _ _ _ hab hbc => le_trans hab hbc⟩

/-- `sorted(list(cards), key=lambda card: card['pos'])` (backup.py line 130).
Python's `sorted` is a stable sort; `List.insertionSort` is stable as well. -/
def sortByPos (cards : List Card) : List Card :=
  List.insertionSort posLE cards

/-- The `lists` dict built on backup.py lines 127-130:
`for list_id, cards in groupby(...): lists[list_id] = sorted(...)`.
Because `groupby` yields one group per RUN, a later run under the same
`idList` overwrites the dict entry of an earlier one. -/
def buildLists (cards : List Card) : List (String × List Card) :=
  (groupRuns cards).foldl (fun d p => insertDict d p.1 (sortByPos p.2)) []

/-- Directory name of list number `i` (backup.py line 133). -/
def listDirName (i : Nat) (l : TrelloList) : List Char :=
  sanitize_file_name (Nat.toDigits 10 i ++ '_' :: l.name)

/-- Directory name of card number `i` (backup.py line 80). -/
def cardDirName (i : Nat) (c : Card) : List Char :=
  sanitize_file_name (Nat.toDigits 10 i ++ '_' :: c.name)

/-- One exported card directory: its name and the card it holds. -/
structure CardOutput where
  dirName : List Char
  card : Card
deriving DecidableEq

/-- One exported list directory: its name, the list it came from, and the
card directories created inside it. -/
structure ListOutput where
  dirName : List Char
  trelloList : TrelloList
  cards : List CardOutput
deriving DecidableEq

/-- `cards = lists[ls['id']] if ls['id'] in lists else []` (backup.py
line 138).  The code builds the dict once before the loop; looking it up per
list is observationally identical because `buildLists` is pure. -/
def listGroup (cards : List Card) (l : TrelloList) : List Card :=
  (List.lookup l.id (buildLists cards)).getD []

/-- The loop body of backup.py lines 132-144 for the list at ordinal `p.1`:
create the list directory and export that list's grouped cards with
`enumerate` ordinals via `backup_card` (line 80 gives the card directory
name). -/
def exportList (cards : List Card) (p : Nat × TrelloList) : ListOutput :=
  { dirName := listDirName p.1 p.2
    trelloList := p.2
    cards := (listGroup cards p.2).enum.map
      (fun q => { dirName := cardDirName q.1 q.2, card := q.2 }) }

/-- The directory tree built by `backup_board` (backup.py lines 127-147):
group the cards, then iterate `board_details['lists']` with `enumerate`. -/
def backup_board (bd : BoardDetails) : List ListOutput :=
  bd.lists.enum.map (exportList bd.cards)

/-- Number of list directories `backup_board` creates. -/
def totalListDirs (bd : BoardDetails) : Nat :=
  (backup_board bd).length

/-- Total number of card directories `backup_board` creates, across all list
directories. -/
def totalCardDirs (bd : BoardDetails) : Nat :=
  ((backup_board bd).map (fun lo => lo.cards.length)).sum

/-- A board summary as returned by the board-index endpoints; `cli` reads
only `id` and `closed` from it. -/
structure BoardSummary where
  id : String
  closed : Bool
deriving DecidableEq

/-- `filter_boards` (backup.py lines 38-40):
`[b for b in boards if not b['closed'] or closed]`, where `closed` is the
0/1 value of the `--closed-boards` flag. -/
def filter_boards (boards : List BoardSummary) (closed : Nat) : List BoardSummary :=
  boards.filter (fun b => !b.closed || closed != 0)

/-- The parsed command-line arguments (backup.py lines 153-204). -/
structure CliArgs where
  d : Option (List Char)
  closed_boards : Nat
  archived_lists : Nat
  archived_cards : Nat
  orgs : Bool
  attachment_size : Int

/-- A filesystem mutation performed by the tool (directory-relative, because
the code navigates with `os.chdir`). -/
inductive FsOp where
  | mkdir (name : List Char)
  | chdir (name : List Char)
  | chdirUp
  | write (name : List Char)
deriving DecidableEq

/-- Destination resolution (backup.py lines 206-210): the timestamp-derived
default unless `args.d` is truthy (`if args.d:` — an empty string given to
`-d` is falsy and also falls back to the default). -/
def resolveDest (d : Option (List Char)) (dflt : List Char) : List Char :=
  match d with
  | some s => if s.isEmpty then dflt else s
  | none => dflt

/-- Model of `cli` (backup.py lines 150-249) after argument parsing.
`defaultDest` models the timestamp-derived default name; `access` models
`os.access(dest_dir, os.R_OK)`; `myBoards` the `members/me/boards` response;
`orgs` the organization name / board-index responses (consulted only when
`args.orgs` is set); `boardOps` abstracts the filesystem operations of
`backup_board` for one board, which are irrelevant at orchestrator level.
Result: the exit code from `sys.exit` (if taken) and the filesystem
operations performed, in order.  The `os.access` check on line 212 precedes
every filesystem mutation: on the exit path the operation list is empty. -/
def cli (args : CliArgs) (defaultDest : List Char) (access : List Char → Bool)
    (myBoards : List BoardSummary) (orgs : List (List Char × List BoardSummary))
    (boardOps : BoardSummary → List FsOp) : Option Nat × List FsOp :=
  let dest := resolveDest args.d defaultDest
  if access dest then
    (some 1, [])
  else
    let groups := ("me".toList, myBoards) :: (if args.orgs then orgs else [])
    (none,
      [FsOp.mkdir dest, FsOp.chdir dest] ++
        groups.flatMap (fun g =>
          [FsOp.mkdir g.1, FsOp.chdir g.1] ++
            (filter_boards g.2 args.closed_boards).flatMap boardOps ++ [FsOp.chdirUp]))

/-- The seven characters the regex class of `sanitize_file_name` actually
matches (the spec additionally lists the backslash, which the class does not
contain). -/
def replacedChars : List Char := ['<', '>', ':', '/', '|', '?', '*']

/- ### Helper lemmas about the sanitizer -/

lemma forbiddenChar_of_mem {c : Char} (h : c ∈ replacedChars) :
    forbiddenChar c = true := by
  fin_cases h <;> decide

lemma replaceChar_eq_underscore {c : Char} (h : forbiddenChar c = true) :
    replaceChar c = '_' := by
  simp [replaceChar, h]

lemma replaceChar_ne_mem (c d : Char) (hd : d ∈ replacedChars) :
    replaceChar c ≠ d := by
  intro heq
  by_cases h : forbiddenChar c = true
  · rw [replaceChar_eq_underscore h] at heq
    subst heq
    have hu : forbiddenChar '_' = true := forbiddenChar_of_mem hd
    exact absurd hu (by decide)
  · have h2 : forbiddenChar c = false := by simpa using h
    have hcc : replaceChar c = c := by simp [replaceChar, h2]
    rw [hcc] at heq
    subst heq
    rw [forbiddenChar_of_mem hd] at h2
    cases h2

lemma replaceChar_idem (c : Char) : replaceChar (replaceChar c) = replaceChar c := by
  by_cases h : forbiddenChar c = true
  · rw [replaceChar_eq_underscore h]
    have : forbiddenChar '_' = false := by decide
    simp [replaceChar, this]
  · have h2 : forbiddenChar c = false := by simpa using h
    simp [replaceChar, h2]

lemma takeLastChars_length_le (n : Nat) (l : List Char) :
    (takeLastChars n l).length ≤ n ∨ l.length ≤ n := by
  unfold takeLastChars
  rw [List.length_drop]
  omega

lemma map_takeLastChars (n : Nat) (l : List Char) :
    (takeLastChars n l).map replaceChar = takeLastChars n (l.map replaceChar) := by
  unfold takeLastChars
  simp [List.map_drop]

/- ### Claims about the sanitizer -/

/-- C2 counterexample: the backslash is listed among the replaced characters
by the claim, but `sanitize_file_name` leaves it unchanged — the regex class
`[<>:\/\|\?\*]` does not contain a literal backslash. -/
theorem sanitize_backslash_counterexample :
    '\\' ∈ ['<', '>', ':', '/', '\\', '|', '?', '*'] ∧
    sanitize_file_name ['\\'] = ['\\'] ∧
    '\\' ∈ sanitize_file_name ['\\'] := by
  decide

/-- C2 (amended): for every input containing any of the seven characters
`< > : / | ? *` (the backslash excluded), the output of `sanitize_file_name`
contains none of those characters, and each occurrence of such a character is
replaced by an underscore. -/
theorem sanitize_removes_replaced_chars (name : List Char) (ch : Char)
    (hch : ch ∈ replacedChars) (i : Nat) (hi : i < name.length)
    (hocc : name.get ⟨i, hi⟩ ∈ replacedChars)
    (hi2 : i < (name.map replaceChar).length) :
    ch ∉ sanitize_file_name name ∧ (name.map replaceChar).get ⟨i, hi2⟩ = '_' := by
  constructor
  · intro hmem
    have h1 : ch ∈ name.map replaceChar := List.mem_of_mem_drop hmem
    obtain ⟨c, _, hc⟩ := List.mem_map.mp h1
    exact replaceChar_ne_mem c ch hch hc
  · rw [List.get_map]
    exact replaceChar_eq_underscore (forbiddenChar_of_mem hocc)

/-- Witness for C2 at the concrete input `a<b`. -/
theorem sanitize_removes_replaced_chars_witness :
    ('<' ∈ replacedChars ∧
      (['a', '<', 'b'] : List Char).get ⟨1, by decide⟩ ∈ replacedChars) ∧
    ('<' ∉ sanitize_file_name ['a', '<', 'b'] ∧
      ((['a', '<', 'b'] : List Char).map replaceChar).get ⟨1, by decide⟩ = '_') :=
  ⟨⟨by decide, by decide⟩,
    sanitize_removes_replaced_chars ['a', '<', 'b'] '<' (by decide) 1 (by decide)
      (by decide) (by decide)⟩

/-- C7: when the replaced string is longer than 255 characters the sanitizer
output has length exactly 255 and is a suffix of the replaced string (left
truncation); otherwise the replaced string is returned whole. -/
theorem sanitize_keeps_last_255 (name : List Char) :
    (255 < (name.map replaceChar).length →
      (sanitize_file_name name).length = 255 ∧
      ∃ p, name.map replaceChar = p ++ sanitize_file_name name) ∧
    ((name.map replaceChar).length ≤ 255 →
      sanitize_file_name name = name.map replaceChar) := by
  unfold sanitize_file_name takeLastChars FILE_NAME_MAX_LENGTH
  constructor
  · intro h
    constructor
    · rw [List.length_drop]
      omega
    · exact ⟨(name.map replaceChar).take ((name.map replaceChar).length - 255),
        (List.take_append_drop _ _).symm⟩
  · intro h
    have h0 : (name.map replaceChar).length - 255 = 0 := by omega
    rw [h0, List.drop_zero]

/-- Witness for C7 at a concrete 256-character input. -/
theorem sanitize_keeps_last_255_witness :
    255 < ((List.replicate 256 'a').map replaceChar).length ∧
    ((sanitize_file_name (List.replicate 256 'a')).length = 255 ∧
      ∃ p, (List.replicate 256 'a').map replaceChar =
        p ++ sanitize_file_name (List.replicate 256 'a')) :=
  ⟨by rw [List.length_map, List.length_replicate]; omega,
    (sanitize_keeps_last_255 (List.replicate 256 'a')).1
      (by rw [List.length_map, List.length_replicate]; omega)⟩

/-- C10: `sanitize_file_name` is idempotent. -/
theorem sanitize_file_name_idempotent (name : List Char) :
    sanitize_file_name (sanitize_file_name name) = sanitize_file_name name := by
  unfold sanitize_file_name
  rw [map_takeLastChars]
  have hmap : (name.map replaceChar).map replaceChar = name.map replaceChar := by
    rw [List.map_map]
    exact List.map_congr_left (fun a _ => replaceChar_idem a)
  rw [hmap]
  unfold takeLastChars FILE_NAME_MAX_LENGTH
  have h0 : ((name.map replaceChar).drop ((name.map replaceChar).length - 255)).length - 255 = 0 := by
    rw [List.length_drop]
    omega
  rw [h0, List.drop_zero]

/- ### Helper lemmas about the attachment download loop -/

lemma runDownloads_clean (fetch : Nat → Attachment → FetchOutcome)
    (l : List (Nat × Attachment))
    (h : ∀ p ∈ l, streamInterrupted (fetch p.1 p.2) = false) :
    runDownloads fetch l =
      { events := l.map (attachmentEvent fetch), aborted := false } := by
  induction l with
  | nil => rfl
  | cons p rest ih =>
    rw [runDownloads, h p (List.mem_cons_self _ _),
      ih (fun q hq => h q (List.mem_cons_of_mem _ hq))]
    simp

lemma runDownloads_events_getElem (fetch : Nat → Attachment → FetchOutcome)
    (l : List (Nat × Attachment)) :
    ∀ i : Nat, ∀ hi : i < l.length,
      (∀ j : Nat, ∀ hj : j < l.length, j < i →
        streamInterrupted (fetch (l.get ⟨j, hj⟩).1 (l.get ⟨j, hj⟩).2) = false) →
      streamInterrupted (fetch (l.get ⟨i, hi⟩).1 (l.get ⟨i, hi⟩).2) = false →
      (runDownloads fetch l).events[i]? =
        some (attachmentEvent fetch (l.get ⟨i, hi⟩)) := by
  induction l with
  | nil =>
    intro i hi
    simp at hi
  | cons p rest ih =>
    intro i hi hpre hcur
    cases i with
    | zero =>
      have hp : (p :: rest).get ⟨0, hi⟩ = p := rfl
      rw [hp] at hcur
      rw [runDownloads, hcur]
      simp [hp]
    | succ i2 =>
      have hhead : streamInterrupted (fetch p.1 p.2) = false :=
        hpre 0 (Nat.succ_le_of_lt (Nat.zero_lt_succ _)) (Nat.zero_lt_succ _)
      rw [runDownloads, hhead]
      simp only [Bool.false_eq_true, if_false]
      have hi2 : i2 < rest.length := Nat.lt_of_succ_lt_succ hi
      have := ih i2 hi2
        (fun j hj hji => hpre (j + 1) (Nat.succ_lt_succ hj) (Nat.succ_lt_succ hji))
        (by simpa using hcur)
      simpa using this

lemma runDownloads_abort (fetch : Nat → Attachment → FetchOutcome)
    (l : List (Nat × Attachment)) :
    ∀ i : Nat, ∀ hi : i < l.length,
      (∀ j : Nat, ∀ hj : j < l.length, j < i →
        streamInterrupted (fetch (l.get ⟨j, hj⟩).1 (l.get ⟨j, hj⟩).2) = false) →
      streamInterrupted (fetch (l.get ⟨i, hi⟩).1 (l.get ⟨i, hi⟩).2) = true →
      runDownloads fetch l =
        { events := (l.take i).map (attachmentEvent fetch) ++
            [attachmentEvent fetch (l.get ⟨i, hi⟩)],
          aborted := true } := by
  induction l with
  | nil =>
    intro i hi
    simp at hi
  | cons p rest ih =>
    intro i hi hpre hcur
    cases i with
    | zero =>
      have hp : (p :: rest).get ⟨0, hi⟩ = p := rfl
      rw [hp] at hcur
      rw [runDownloads, hcur]
      simp [hp]
    | succ i2 =>
      have hhead : streamInterrupted (fetch p.1 p.2) = false :=
        hpre 0 (Nat.succ_le_of_lt (Nat.zero_lt_succ _)) (Nat.zero_lt_succ _)
      rw [runDownloads, hhead]
      simp only [Bool.false_eq_true, if_false]
      have hi2 : i2 < rest.length := Nat.lt_of_succ_lt_succ hi
      have hrec := ih i2 hi2
        (fun j hj hji => hpre (j + 1) (Nat.succ_lt_succ hj) (Nat.succ_lt_succ hji))
        (by simpa using hcur)
      rw [hrec]
      simp

lemma includedAttachments_enum_get (c : Card) (m : Int) (i : Nat)
    (hi : i < (includedAttachments c m).length)
    (hi2 : i < (includedAttachments c m).enum.length) :
    (includedAttachments c m).enum.get ⟨i, hi2⟩ =
      (i, (includedAttachments c m).get ⟨i, hi⟩) := by
  simp [List.get_eq_getElem, List.getElem_enum]

/- ### Claims about the attachment size filter and download loop -/

/-- C8: with the sentinel limit `-1`, the filter of `download_attachments`
keeps exactly the attachments whose byte size is known (`bytes` not null),
regardless of magnitude. -/
theorem unlimited_selects_exactly_sized (c : Card) :
    includedAttachments c (-1) = c.attachments.filter (fun a => a.bytes.isSome) := by
  unfold includedAttachments
  apply List.filter_congr
  intro a _
  cases h : a.bytes with
  | none => simp [attachmentIncluded, h]
  | some b => simp [attachmentIncluded, h]

/-- The attachment of size exactly equal to the limit used in the C3
counterexample. -/
def attAtLimit : Attachment := { name := ['f'], url := [], bytes := some 5 }

/-- A card holding only `attAtLimit`. -/
def cardAtLimit : Card :=
  { name := ['c'], desc := [], pos := 0, idList := "L", attachments := [attAtLimit] }

/-- C3 counterexample: with the non-negative limit 5, an attachment of size
exactly 5 (at the limit) is NOT selected — the filter on backup.py line 48 is
strict (`a['bytes'] < max_size`).  No attachments directory is created and no
download event is produced, although the claim promises a download for a size
at or below the limit. -/
theorem attachment_at_limit_skipped :
    (0 : Int) ≤ 5 ∧ attAtLimit.bytes = some 5 ∧
    includedAttachments cardAtLimit 5 = [] ∧
    attachmentsDirCreated cardAtLimit 5 = false ∧
    download_attachments cardAtLimit 5
        (fun _ _ => FetchOutcome.response 200 [['x']] false) =
      { events := [], aborted := false } := by
  decide

/-- C3 (amended): for a known byte size and a non-negative limit, an
attachment whose size is at or above the limit is never selected, and one
whose size is strictly below the limit is selected: the `attachments`
subdirectory is created, the attachment occupies some ordinal `i` of the
filtered list, and — for any fetch oracle whose body streams are clean — a
successful fetch writes the response body to the file carrying ordinal
prefix `i`. -/
theorem attachment_size_filter (c : Card) (m : Int) (hm : 0 ≤ m)
    (a : Attachment) (ha : a ∈ c.attachments) (b : Int) (hb : a.bytes = some b) :
    (m ≤ b → a ∉ includedAttachments c m) ∧
    (b < m → attachmentsDirCreated c m = true ∧
      ∃ i, ∃ hi : i < (includedAttachments c m).length,
        (includedAttachments c m).get ⟨i, hi⟩ = a ∧
        ∀ fetch : Nat → Attachment → FetchOutcome, streamsCleanly fetch →
          ∀ st : Nat, ∀ chunks : List (List Char),
          fetch i a = FetchOutcome.response st chunks false →
          (download_attachments c m fetch).events[i]? =
            some (DAEvent.wroteFile (attachmentFileName i a) (writtenBody chunks))) := by
  have hm1 : (m == -1) = false := by
    simp only [beq_eq_false_iff_ne, ne_eq]
    intro h
    rw [h] at hm
    omega
  constructor
  · intro hmb hmem
    have h1 := (List.mem_filter.mp hmem).2
    simp only [attachmentIncluded, hb, hm1, Bool.or_false, decide_eq_true_eq] at h1
    omega
  · intro hbm
    have hinc : attachmentIncluded a m = true := by
      rw [attachmentIncluded, hb]
      simp [hbm]
    have hmem : a ∈ includedAttachments c m := List.mem_filter.mpr ⟨ha, hinc⟩
    refine ⟨?_, ?_⟩
    · have hne : includedAttachments c m ≠ [] := List.ne_nil_of_mem hmem
      unfold attachmentsDirCreated
      simp [hne]
    · obtain ⟨n, hn⟩ := List.mem_iff_get.mp hmem
      refine ⟨n.1, n.2, by simpa using hn, ?_⟩
      intro fetch hclean st chunks hfetch
      have hgetE : (includedAttachments c m)[n.1] = a := by
        simpa [List.get_eq_getElem] using hn
      rw [download_attachments,
        runDownloads_clean fetch _ (fun p _ => hclean p.1 p.2)]
      simp [List.getElem?_map, List.getElem?_enum, List.getElem?_eq_getElem n.2,
        hgetE, attachmentEvent, hfetch]

/-- Attachment of size 3 for the C3 and C4 witnesses. -/
def attSmall : Attachment := { name := ['s'], url := [], bytes := some 3 }

/-- Attachment of size 20 for the C3 and C4 witnesses. -/
def attBig : Attachment := { name := ['g'], url := [], bytes := some 20 }

/-- A card holding `attSmall` and `attBig`. -/
def cardMixed : Card :=
  { name := ['c'], desc := [], pos := 0, idList := "L", attachments := [attSmall, attBig] }

/-- Witness for C3 at `cardMixed` with limit 10 and attachment `attSmall`. -/
theorem attachment_size_filter_witness :
    ((0 : Int) ≤ 10 ∧ attSmall ∈ cardMixed.attachments ∧ attSmall.bytes = some 3) ∧
    ((10 ≤ (3 : Int) → attSmall ∉ includedAttachments cardMixed 10) ∧
      ((3 : Int) < 10 → attachmentsDirCreated cardMixed 10 = true ∧
        ∃ i, ∃ hi : i < (includedAttachments cardMixed 10).length,
          (includedAttachments cardMixed 10).get ⟨i, hi⟩ = attSmall ∧
          ∀ fetch : Nat → Attachment → FetchOutcome, streamsCleanly fetch →
            ∀ st : Nat, ∀ chunks : List (List Char),
            fetch i attSmall = FetchOutcome.response st chunks false →
            (download_attachments cardMixed 10 fetch).events[i]? =
              some (DAEvent.wroteFile (attachmentFileName i attSmall)
                (writtenBody chunks)))) :=
  ⟨⟨by decide, by decide, rfl⟩,
    attachment_size_filter cardMixed 10 (by decide) attSmall (by decide) 3 rfl⟩

/-- The attachment used in the C4 counterexample. -/
def att404 : Attachment := { name := ['x'], url := [], bytes := some 1 }

/-- A card holding only `att404`. -/
def card404 : Card :=
  { name := ['c'], desc := [], pos := 0, idList := "L", attachments := [att404] }

/-- C4 counterexample: two failure modes the claim mispredicts, at concrete
inputs.  (1) A non-success HTTP status (here 404) is not treated as a
download failure — no diagnostic is written to the error stream; the error
body is streamed to the attachment file as if the download had succeeded
(`requests.get` does not raise on HTTP error statuses and the code never
inspects the status).  (2) A network error while streaming the body of the
FIRST of two selected attachments is uncaught (lines 69-72 sit outside the
`try`): no diagnostic is written, the partial file remains, the export
aborts, and the second attachment is never processed. -/
theorem download_failure_claim_counterexample :
    (download_attachments card404 10
        (fun _ _ => FetchOutcome.response 404 [['e']] false) =
      { events := [DAEvent.wroteFile (attachmentFileName 0 att404) ['e']],
        aborted := false }) ∧
    (includedAttachments cardMixed (-1) = [attSmall, attBig] ∧
      download_attachments cardMixed (-1)
          (fun i _ => if i == 0 then FetchOutcome.response 200 [['p']] true
            else FetchOutcome.response 200 [['y']] false) =
        { events := [DAEvent.wroteFile (attachmentFileName 0 attSmall) ['p']],
          aborted := true }) := by
  decide

/-- C4 (amended): only an exception raised by `requests.get` itself is caught:
it produces a diagnostic on the error stream naming the attachment file, at
that attachment's position, and the loop continues — when no body stream is
interrupted the loop is total (one event per selected attachment, no abort).
A network error or timeout while streaming a response body, however, is
uncaught: at the first interrupted attachment the partially received chunks
remain in the file, no diagnostic is issued, the loop aborts (the remaining
attachments produce no events), and the abort propagates out of the card and
board export.  Non-success HTTP statuses are not detected at all (see the
counterexample). -/
theorem download_failure_handling (c : Card) (m : Int)
    (fetch : Nat → Attachment → FetchOutcome) :
    (streamsCleanly fetch →
      (download_attachments c m fetch).aborted = false ∧
      (download_attachments c m fetch).events.length =
        (includedAttachments c m).length) ∧
    (∀ i : Nat, ∀ hi : i < (includedAttachments c m).length,
      (∀ j : Nat, ∀ hj : j < (includedAttachments c m).length, j < i →
        streamInterrupted (fetch j ((includedAttachments c m).get ⟨j, hj⟩)) = false) →
      (fetch i ((includedAttachments c m).get ⟨i, hi⟩) = FetchOutcome.exn →
        (download_attachments c m fetch).events[i]? =
          some (DAEvent.stderrMsg ("Could not download ".toList ++
            attachmentFileName i ((includedAttachments c m).get ⟨i, hi⟩)))) ∧
      (∀ st : Nat, ∀ chunks : List (List Char),
        fetch i ((includedAttachments c m).get ⟨i, hi⟩) =
            FetchOutcome.response st chunks true →
        download_attachments c m fetch =
          { events := ((includedAttachments c m).enum.take i).map
              (attachmentEvent fetch) ++
              [DAEvent.wroteFile
                (attachmentFileName i ((includedAttachments c m).get ⟨i, hi⟩))
                (writtenBody chunks)],
            aborted := true })) := by
  have henlen : (includedAttachments c m).enum.length =
      (includedAttachments c m).length := List.enum_length
  constructor
  · intro hclean
    rw [download_attachments,
      runDownloads_clean fetch _ (fun p _ => hclean p.1 p.2)]
    simp
  · intro i hi hpre
    have hi2 : i < (includedAttachments c m).enum.length := henlen ▸ hi
    have hpre2 : ∀ j : Nat, ∀ hj : j < (includedAttachments c m).enum.length, j < i →
        streamInterrupted (fetch ((includedAttachments c m).enum.get ⟨j, hj⟩).1
          ((includedAttachments c m).enum.get ⟨j, hj⟩).2) = false := by
      intro j hj hji
      have hj2 : j < (includedAttachments c m).length := henlen ▸ hj
      rw [includedAttachments_enum_get c m j hj2 hj]
      exact hpre j hj2 hji
    constructor
    · intro hfetch
      have hcur : streamInterrupted
          (fetch ((includedAttachments c m).enum.get ⟨i, hi2⟩).1
            ((includedAttachments c m).enum.get ⟨i, hi2⟩).2) = false := by
        rw [includedAttachments_enum_get c m i hi hi2, hfetch]
        rfl
      have := runDownloads_events_getElem fetch
        (includedAttachments c m).enum i hi2 hpre2 hcur
      rw [download_attachments, this, includedAttachments_enum_get c m i hi hi2,
        attachmentEvent]
      rw [hfetch]
    · intro st chunks hfetch
      have hcur : streamInterrupted
          (fetch ((includedAttachments c m).enum.get ⟨i, hi2⟩).1
            ((includedAttachments c m).enum.get ⟨i, hi2⟩).2) = true := by
        rw [includedAttachments_enum_get c m i hi hi2, hfetch]
        rfl
      have habort := runDownloads_abort fetch
        (includedAttachments c m).enum i hi2 hpre2 hcur
      rw [download_attachments, habort, includedAttachments_enum_get c m i hi hi2,
        attachmentEvent]
      rw [hfetch]

/-- The fetch oracle of the C4 witness: `requests.get` raises for ordinal 0,
every other attachment gets a clean 200 response. -/
def exnAtZero : Nat → Attachment → FetchOutcome :=
  fun i _ => if i == 0 then FetchOutcome.exn
    else FetchOutcome.response 200 [['y']] false

lemma exnAtZero_streamsCleanly : streamsCleanly exnAtZero := by
  intro n a
  unfold exnAtZero
  cases h : (n == 0) <;> simp [h, streamInterrupted]

/-- Witness for C4: with `exnAtZero` on `cardMixed` (limit -1, both
attachments selected), the loop does not abort, processes both attachments,
and the stderr diagnostic sits at position 0. -/
theorem download_failure_handling_witness :
    (streamsCleanly exnAtZero ∧
      0 < (includedAttachments cardMixed (-1)).length ∧
      (∀ j : Nat, ∀ hj : j < (includedAttachments cardMixed (-1)).length, j < 0 →
        streamInterrupted (exnAtZero j
          ((includedAttachments cardMixed (-1)).get ⟨j, hj⟩)) = false) ∧
      exnAtZero 0 ((includedAttachments cardMixed (-1)).get ⟨0, by decide⟩) =
        FetchOutcome.exn) ∧
    ((download_attachments cardMixed (-1) exnAtZero).aborted = false ∧
      (download_attachments cardMixed (-1) exnAtZero).events.length =
        (includedAttachments cardMixed (-1)).length) ∧
    (download_attachments cardMixed (-1) exnAtZero).events[0]? =
      some (DAEvent.stderrMsg ("Could not download ".toList ++
        attachmentFileName 0
          ((includedAttachments cardMixed (-1)).get ⟨0, by decide⟩))) :=
  ⟨⟨exnAtZero_streamsCleanly, by decide,
      fun j hj hj0 => absurd hj0 (Nat.not_lt_zero j), rfl⟩,
    (download_failure_handling cardMixed (-1) exnAtZero).1 exnAtZero_streamsCleanly,
    ((download_failure_handling cardMixed (-1) exnAtZero).2 0 (by decide)
      (fun j hj hj0 => absurd hj0 (Nat.not_lt_zero j))).1 rfl⟩

/- ### Helper lemmas about grouping and the board exporter -/

lemma groupRuns_key (cards : List Card) :
    ∀ p ∈ groupRuns cards, ∀ c ∈ p.2, c.idList = p.1 := by
  induction cards with
  | nil =>
    intro p hp
    simp [groupRuns] at hp
  | cons c cs ih =>
    intro p hp c2 hc2
    cases hrec : groupRuns cs with
    | nil =>
      rw [groupRuns, hrec] at hp
      simp only [List.mem_singleton] at hp
      subst hp
      simp only [List.mem_singleton] at hc2
      subst hc2
      rfl
    | cons q rest =>
      obtain ⟨k, g⟩ := q
      rw [groupRuns, hrec] at hp
      dsimp only at hp
      by_cases hk : c.idList = k
      · rw [if_pos hk] at hp
        rcases List.mem_cons.mp hp with hp1 | hp2
        · subst hp1
          rcases List.mem_cons.mp hc2 with hc1 | hcg
          · subst hc1
            exact hk
          · exact ih (k, g) (hrec ▸ List.mem_cons_self _ _) c2 hcg
        · exact ih p (hrec ▸ List.mem_cons_of_mem _ hp2) c2 hc2
      · rw [if_neg hk] at hp
        rcases List.mem_cons.mp hp with hp1 | hp2
        · subst hp1
          simp only [List.mem_singleton] at hc2
          subst hc2
          rfl
        · exact ih p (hrec ▸ hp2) c2 hc2

lemma insertDict_mem {d : List (String × List Card)} {k : String}
    {v : List Card} {p : String × List Card} (hp : p ∈ insertDict d k v) :
    p = (k, v) ∨ p ∈ d := by
  induction d with
  | nil =>
    simp only [insertDict, List.mem_singleton] at hp
    exact Or.inl hp
  | cons q rest ih =>
    obtain ⟨k2, v2⟩ := q
    rw [insertDict] at hp
    by_cases hk : k = k2
    · rw [if_pos hk] at hp
      rcases List.mem_cons.mp hp with h1 | h2
      · exact Or.inl h1
      · exact Or.inr (List.mem_cons_of_mem _ h2)
    · rw [if_neg hk] at hp
      rcases List.mem_cons.mp hp with h1 | h2
      · exact Or.inr (h1 ▸ List.mem_cons_self _ _)
      · rcases ih h2 with h3 | h4
        · exact Or.inl h3
        · exact Or.inr (List.mem_cons_of_mem _ h4)

lemma sortByPos_mem {c : Card} {l : List Card} : c ∈ sortByPos l ↔ c ∈ l :=
  List.mem_insertionSort posLE

lemma sortByPos_sorted (l : List Card) : List.Sorted posLE (sortByPos l) :=
  List.sorted_insertionSort posLE l

lemma foldl_insertDict_inv (P : String × List Card → Prop)
    (runs : List (String × List Card)) (d : List (String × List Card))
    (hruns : ∀ p ∈ runs, P (p.1, sortByPos p.2)) (hd : ∀ p ∈ d, P p) :
    ∀ p ∈ runs.foldl (fun d2 q => insertDict d2 q.1 (sortByPos q.2)) d, P p := by
  induction runs generalizing d with
  | nil => exact hd
  | cons r rs ih =>
    intro p hp
    refine ih _ (fun q hq => hruns q (List.mem_cons_of_mem _ hq)) ?_ p hp
    intro q hq
    rcases insertDict_mem hq with h1 | h2
    · exact h1 ▸ hruns r (List.mem_cons_self _ _)
    · exact hd q h2

lemma buildLists_key (cards : List Card) :
    ∀ p ∈ buildLists cards, ∀ c ∈ p.2, c.idList = p.1 := by
  apply foldl_insertDict_inv (fun p => ∀ c ∈ p.2, c.idList = p.1)
  · intro p hp c hc
    exact groupRuns_key cards p hp c (sortByPos_mem.mp hc)
  · intro p hp
    simp at hp

lemma buildLists_sorted (cards : List Card) :
    ∀ p ∈ buildLists cards, List.Sorted posLE p.2 := by
  apply foldl_insertDict_inv (fun p => List.Sorted posLE p.2)
  · intro p _
    exact sortByPos_sorted p.2
  · intro p hp
    simp at hp

lemma lookup_mem {d : List (String × List Card)} {k : String} {v : List Card}
    (h : List.lookup k d = some v) : (k, v) ∈ d := by
  induction d with
  | nil => cases h
  | cons q rest ih =>
    obtain ⟨k2, v2⟩ := q
    rw [List.lookup] at h
    by_cases hk : k = k2
    · have hbeq : (k == k2) = true := beq_iff_eq.mpr hk
      rw [hbeq] at h
      cases h
      exact hk ▸ List.mem_cons_self _ _
    · have hbeq : (k == k2) = false := beq_eq_false_iff_ne.mpr hk
      rw [hbeq] at h
      exact List.mem_cons_of_mem _ (ih h)

lemma listGroup_key (cards : List Card) (l : TrelloList) :
    ∀ c ∈ listGroup cards l, c.idList = l.id := by
  intro c hc
  unfold listGroup at hc
  cases hlu : List.lookup l.id (buildLists cards) with
  | none =>
    rw [hlu] at hc
    simp at hc
  | some v =>
    rw [hlu] at hc
    simp only [Option.getD_some] at hc
    exact buildLists_key cards (l.id, v) (lookup_mem hlu) c hc

lemma listGroup_sorted (cards : List Card) (l : TrelloList) :
    List.Sorted posLE (listGroup cards l) := by
  unfold listGroup
  cases hlu : List.lookup l.id (buildLists cards) with
  | none => simp [List.Sorted]
  | some v =>
    simp only [Option.getD_some]
    exact buildLists_sorted cards (l.id, v) (lookup_mem hlu)

lemma exportList_cards_length (cards : List Card) (p : Nat × TrelloList) :
    (exportList cards p).cards.length = (listGroup cards p.2).length := by
  unfold exportList
  rw [List.length_map, List.enum_length]

lemma exportList_cards_get (cards : List Card) (p : Nat × TrelloList) (k : Nat)
    (hk : k < (exportList cards p).cards.length)
    (hk2 : k < (listGroup cards p.2).length) :
    (exportList cards p).cards.get ⟨k, hk⟩ =
      { dirName := cardDirName k ((listGroup cards p.2).get ⟨k, hk2⟩),
        card := (listGroup cards p.2).get ⟨k, hk2⟩ } := by
  unfold exportList
  simp [List.get_eq_getElem, List.getElem_map, List.getElem_enum]

/- ### Claims about the board exporter -/

/-- Card `a` of list L1, first in the interleaved input. -/
def cardA : Card := { name := ['a'], desc := [], pos := 1, idList := "L1", attachments := [] }

/-- Card `b` of list L2, separating the two L1 cards. -/
def cardB : Card := { name := ['b'], desc := [], pos := 1, idList := "L2", attachments := [] }

/-- Card `c` of list L1, last in the interleaved input. -/
def cardC : Card := { name := ['c'], desc := [], pos := 2, idList := "L1", attachments := [] }

/-- A board whose cards array is not grouped by `idList`: the two L1 cards
are separated by an L2 card.  Every card's `idList` matches a list. -/
def interleavedBoard : BoardDetails :=
  { name := ['S']
    lists := [⟨"L1", ['x']⟩, ⟨"L2", ['y']⟩]
    cards := [cardA, cardB, cardC] }

/-- C1, evaluated at a failing input: `interleavedBoard` has 3 cards across
2 lists, each card's `idList` matching a list, yet `backup_board` creates
only 2 card directories in total and card `a` is exported nowhere.
`itertools.groupby` (backup.py line 128) groups only CONSECUTIVE cards with
equal `idList`, so the unsorted input yields two separate runs for L1, and
the dict assignment on line 130 keeps only the last run — the claim that no
pre-sorting by `idList` is required fails on the code. -/
theorem groupby_drops_card_on_interleaved_input :
    interleavedBoard.cards.length = 3 ∧
    interleavedBoard.lists.length = 2 ∧
    interleavedBoard.cards.all
      (fun c => interleavedBoard.lists.any (fun l => l.id == c.idList)) = true ∧
    totalListDirs interleavedBoard = 2 ∧
    totalCardDirs interleavedBoard = 2 ∧
    (backup_board interleavedBoard).all
      (fun lo => lo.cards.all (fun co => !(co.card == cardA))) = true := by
  decide

/-- C6: within one list directory the exported cards carry zero-based
ordinals ascending with the `pos` field of the source data: for ordinals
`i < j` the card at `i` has position at most that of the card at `j`
(positions are compared by Python's stable `sorted`), and the directory name
of the card at ordinal `i` is built from `i`. -/
theorem cards_ordered_by_position (bd : BoardDetails) (lo : ListOutput)
    (hlo : lo ∈ backup_board bd) (i j : Nat) (hij : i < j)
    (hi : i < lo.cards.length) (hj : j < lo.cards.length) :
    (lo.cards.get ⟨i, hi⟩).card.pos ≤ (lo.cards.get ⟨j, hj⟩).card.pos ∧
    (lo.cards.get ⟨i, hi⟩).dirName = cardDirName i (lo.cards.get ⟨i, hi⟩).card := by
  unfold backup_board at hlo
  obtain ⟨p, hp, hpe⟩ := List.mem_map.mp hlo
  subst hpe
  have hlen := exportList_cards_length bd.cards p
  have hi2 : i < (listGroup bd.cards p.2).length := hlen ▸ hi
  have hj2 : j < (listGroup bd.cards p.2).length := hlen ▸ hj
  rw [exportList_cards_get bd.cards p i hi hi2, exportList_cards_get bd.cards p j hj hj2]
  constructor
  · exact (listGroup_sorted bd.cards p.2).rel_get_of_lt (Fin.mk_lt_mk.mpr hij)
  · simp

/-- The `Add test` card of the spec's worked example (position 1). -/
def addTestCard : Card :=
  { name := "Add test".toList, desc := [], pos := 1, idList := "L1", attachments := [] }

/-- The `Fix bug` card of the spec's worked example (position 2). -/
def fixBugCard : Card :=
  { name := "Fix bug".toList, desc := "...".toList, pos := 2, idList := "L1", attachments := [] }

/-- The `Sprint` board of the spec's worked example: `Fix bug` (pos 2) comes
before `Add test` (pos 1) in the input array. -/
def sprintBoard : BoardDetails :=
  { name := "Sprint".toList
    lists := [⟨"L1", "Todo".toList⟩]
    cards := [fixBugCard, addTestCard] }

/-- The expected export of the `Todo` list: `0_Add test` then `1_Fix bug`. -/
def sprintTodoOutput : ListOutput :=
  { dirName := "0_Todo".toList
    trelloList := ⟨"L1", "Todo".toList⟩
    cards := [{ dirName := "0_Add test".toList, card := addTestCard },
              { dirName := "1_Fix bug".toList, card := fixBugCard }] }

/-- Witness for C6 at the spec's worked example. -/
theorem cards_ordered_by_position_witness :
    (sprintTodoOutput ∈ backup_board sprintBoard ∧ 0 < 1 ∧
      0 < sprintTodoOutput.cards.length ∧ 1 < sprintTodoOutput.cards.length) ∧
    ((sprintTodoOutput.cards.get ⟨0, by decide⟩).card.pos ≤
        (sprintTodoOutput.cards.get ⟨1, by decide⟩).card.pos ∧
      (sprintTodoOutput.cards.get ⟨0, by decide⟩).dirName =
        cardDirName 0 (sprintTodoOutput.cards.get ⟨0, by decide⟩).card) :=
  ⟨⟨by decide, by decide, by decide, by decide⟩,
    cards_ordered_by_position sprintBoard sprintTodoOutput (by decide) 0 1
      (by decide) (by decide) (by decide)⟩

/-- C9: a card whose `idList` matches no list of the board is silently never
exported — it appears in no list directory's card outputs (and the export is
a total function, so no error arises from it). -/
theorem orphan_card_not_exported (bd : BoardDetails) (c : Card)
    (hc : ∀ l ∈ bd.lists, l.id ≠ c.idList) :
    ∀ lo ∈ backup_board bd, ∀ co ∈ lo.cards, co.card ≠ c := by
  intro lo hlo co hco heq
  unfold backup_board at hlo
  obtain ⟨p, hp, hpe⟩ := List.mem_map.mp hlo
  subst hpe
  unfold exportList at hco
  obtain ⟨q, hq, hqe⟩ := List.mem_map.mp hco
  have hqc : q.2 ∈ listGroup bd.cards p.2 := List.snd_mem_of_mem_enum hq
  have hid : q.2.idList = p.2.id := listGroup_key bd.cards p.2 q.2 hqc
  have hcard : co.card = q.2 := by rw [← hqe]
  have hlmem : p.2 ∈ bd.lists := List.snd_mem_of_mem_enum hp
  exact hc p.2 hlmem (by rw [← hid, ← hcard, heq])

/-- A card whose `idList` (`L9`) matches no list of `orphanBoard`. -/
def orphanCard : Card :=
  { name := ['o'], desc := [], pos := 0, idList := "L9", attachments := [] }

/-- A board with one list `L1` and only the orphan card. -/
def orphanBoard : BoardDetails :=
  { name := ['B'], lists := [⟨"L1", ['t']⟩], cards := [orphanCard] }

/-- Witness for C9 at `orphanBoard`. -/
theorem orphan_card_not_exported_witness :
    (∀ l ∈ orphanBoard.lists, l.id ≠ orphanCard.idList) ∧
    (∀ lo ∈ backup_board orphanBoard, ∀ co ∈ lo.cards, co.card ≠ orphanCard) :=
  ⟨by decide, orphan_card_not_exported orphanBoard orphanCard (by decide)⟩

/- ### Claim about the orchestrator preflight -/

/-- C5: when the resolved destination directory passes the
`os.access(dest_dir, os.R_OK)` check (it exists and is readable), `cli`
exits with code 1 having performed no filesystem operation: the check on
backup.py line 212 precedes every `os.mkdir` / `os.chdir` / file write. -/
theorem existing_dest_exits_without_mutation (args : CliArgs)
    (defaultDest : List Char) (access : List Char → Bool)
    (myBoards : List BoardSummary) (orgs : List (List Char × List BoardSummary))
    (boardOps : BoardSummary → List FsOp)
    (h : access (resolveDest args.d defaultDest) = true) :
    cli args defaultDest access myBoards orgs boardOps = (some 1, []) := by
  simp [cli, h]

/-- Witness for C5 at a concrete configuration whose destination exists. -/
theorem existing_dest_exits_without_mutation_witness :
    ((fun _ : List Char => true) (resolveDest none ['d']) = true) ∧
    cli { d := none, closed_boards := 0, archived_lists := 0,
          archived_cards := 0, orgs := false,
          attachment_size := ATTACHMENT_BYTE_LIMIT }
        ['d'] (fun _ => true) [] [] (fun _ => []) = (some 1, []) :=
  ⟨rfl,
    existing_dest_exits_without_mutation
      { d := none, closed_boards := 0, archived_lists := 0,
        archived_cards := 0, orgs := false,
        attachment_size := ATTACHMENT_BYTE_LIMIT }
      ['d'] (fun _ => true) [] [] (fun _ => []) rfl⟩

end TrelloBackup
